import Mathlib

/-!
Verification development for the peer-bootstrap / quorum-formation /
DKG-coordination / request-broadcast core of `sn_dbc_examples`
(`src/bin/spentbook_node.rs`, `src/bin/mint_node.rs`, `src/bin/wallet.rs`,
`src/bin/wallet_node.rs`, `src/wire.rs`).

Modelling conventions:
* `XorName` and `SocketAddr` are opaque identifiers, embedded as `Nat`.
* `BTreeMap<XorName, SocketAddr>` is embedded as an association list
  `List (Nat × Nat)` with `btContains` / `btGet` / `btInsert` mirroring
  `contains_key` / `get` / `insert` (key-ordered insertion).
* External collaborators (`bls_dkg::KeyGen`, `SpentBookNodeMock::log_spent`,
  `MintNode::reissue`, the key manager) are out-of-scope crates; they are
  embedded as oracle parameters, and the side effects the source performs
  (network sends, `KeyGen::initialize` + first relay) are recorded as an
  explicit `Effect` trace.
* A Rust `panic!`/`unwrap()` on `None` is embedded as an `Option`-valued
  function returning `none` (no defined result).
-/

/-- Embedding of `BTreeMap::contains_key` on the peer registry. -/
def btContains : List (Nat × Nat) → Nat → Bool
  | [], _ => false
  | (a, _) :: rest, k => if k = a then true else btContains rest k

/-- Embedding of `BTreeMap::get` on the peer registry. -/
def btGet : List (Nat × Nat) → Nat → Option Nat
  | [], _ => none
  | (a, v) :: rest, k => if k = a then some v else btGet rest k

/-- Embedding of `BTreeMap::insert` on the peer registry (key-ordered,
overwriting an equal key, as a B-tree map does). -/
def btInsert : List (Nat × Nat) → Nat → Nat → List (Nat × Nat)
  | [], k, v => [(k, v)]
  | (a, w) :: rest, k, v =>
    if k < a then (k, v) :: (a, w) :: rest
    else if k = a then (k, v) :: rest
    else (a, w) :: btInsert rest k v

theorem btGet_none_of_not_contains (m : List (Nat × Nat)) (k : Nat)
    (h : btContains m k = false) : btGet m k = none := by
  induction m with
  | nil => rfl
  | cons p rest ih =>
    obtain ⟨a, w⟩ := p
    by_cases hk : k = a
    · simp [btContains, hk] at h
    · simp [btContains, hk] at h
      simp [btGet, hk, ih h]

theorem btGet_btInsert_ne (m : List (Nat × Nat)) (k v j : Nat) (h : j ≠ k) :
    btGet (btInsert m k v) j = btGet m j := by
  induction m with
  | nil => simp [btInsert, btGet, h]
  | cons p rest ih =>
    obtain ⟨a, w⟩ := p
    by_cases h1 : k < a
    · by_cases hj : j = a
      · subst hj
        simp [btInsert, btGet, h1, h]
      · simp [btInsert, btGet, h1, h, hj]
    · by_cases h2 : k = a
      · have hj : j ≠ a := h2 ▸ h
        simp [btInsert, btGet, h1, h2, h, hj]
      · by_cases hj : j = a <;> simp [btInsert, btGet, h1, h2, hj, ih]

theorem btGet_btInsert_self (m : List (Nat × Nat)) (k v : Nat) :
    btGet (btInsert m k v) k = some v := by
  induction m with
  | nil => simp [btInsert, btGet]
  | cons p rest ih =>
    obtain ⟨a, w⟩ := p
    by_cases h1 : k < a
    · simp [btInsert, btGet, h1]
    · by_cases h2 : k = a
      · simp [btInsert, btGet, h1, h2]
      · have : k ≠ a := h2
        simp [btInsert, btGet, h1, h2, this, ih]

theorem btInsert_length (m : List (Nat × Nat)) (k v : Nat)
    (h : btContains m k = false) : (btInsert m k v).length = m.length + 1 := by
  induction m with
  | nil => rfl
  | cons p rest ih =>
    obtain ⟨a, w⟩ := p
    by_cases hk : k = a
    · simp [btContains, hk] at h
    · simp [btContains, hk] at h
      by_cases h1 : k < a
      · simp [btInsert, h1]
      · simp [btInsert, h1, hk, ih h]

theorem btContains_btInsert (m : List (Nat × Nat)) (k v j : Nat) :
    btContains (btInsert m k v) j = if j = k then true else btContains m j := by
  induction m with
  | nil => simp [btInsert, btContains]
  | cons p rest ih =>
    obtain ⟨a, w⟩ := p
    by_cases h1 : k < a
    · by_cases hj : j = k <;> by_cases hj2 : j = a <;>
        simp [btInsert, btContains, h1, hj, hj2]
    · by_cases h2 : k = a
      · subst h2
        by_cases hj : j = k <;> simp [btInsert, btContains, h1, hj]
      · by_cases hj : j = a
        · subst hj
          have : j ≠ k := fun hc => h2 hc.symm
          simp [btInsert, btContains, h1, h2, this]
        · simp [btInsert, btContains, h1, h2, hj, ih]

/-- Observable side effects of the peer-message handlers.  `sendPeer dest n na`
records `send_p2p_network_msg(Msg::Peer(n, na), dest)`; `dkgInit names`
records `KeyGen::initialize(self, names.len() - 1, names)` together with the
relay of its outbound messages (`initiate_dkg` in both node binaries). -/
inductive Effect
  | sendPeer (dest : Nat) (peerId : Nat) (peerAddr : Nat)
  | dkgInit (participants : List Nat)
deriving DecidableEq, Repr

/-- Node state shared by `SpentbookNodeServer` and `MintNodeServerData`:
the fields that `handle_peer_msg` / `initiate_dkg` read or write. -/
structure NodeState where
  xorName : Nat
  quorumSize : Nat
  peers : List (Nat × Nat)
  keygenStarted : Bool
deriving DecidableEq, Repr

/-- Embedding of `initiate_dkg` (spentbook_node.rs:321, mint_node.rs:341):
collect the registry's key set, call `KeyGen::initialize` with
`threshold = names.len() - 1` and relay its outbound messages (recorded as
one `Effect.dkgInit`), then set `keygen = Some(..)`. -/
def initiate_dkg (s : NodeState) : NodeState × List Effect :=
  ({ s with keygenStarted := true }, [Effect.dkgInit (s.peers.map Prod.fst)])

/-- Embedding of `handle_peer_msg` (spentbook_node.rs:293, mint_node.rs:316,
the two bodies are identical up to message-type names): a known actor is
ignored; a new actor first receives the whole current registry, is then
inserted, and if the registry size now equals `quorum_size`, DKG is
initiated. -/
def handle_peer_msg (s : NodeState) (actor addr : Nat) : NodeState × List Effect :=
  if btContains s.peers actor then (s, [])
  else
    let sends := s.peers.map (fun p => Effect.sendPeer addr p.1 p.2)
    let s1 := { s with peers := btInsert s.peers actor addr }
    if s1.peers.length = s.quorumSize then
      let r := initiate_dkg s1
      (r.1, sends ++ r.2)
    else
      (s1, sends)

/-- Sequential processing of a list of `Peer(actor, addr)` announcements by
one node, accumulating the trace of effects.  `handle_peer_msg` is the only
code in either node binary that writes `self.peers` after construction. -/
def run_peer_msgs (s : NodeState) : List (Nat × Nat) → NodeState × List Effect
  | [] => (s, [])
  | (a, ad) :: rest =>
    let r1 := handle_peer_msg s a ad
    let r2 := run_peer_msgs r1.1 rest
    (r2.1, r1.2 ++ r2.2)

/-- The state a node is constructed with (`do_main` in both binaries):
the registry holds exactly the node's own `(xor_name, public_addr)` entry
and no DKG session exists. -/
def initState (self selfAddr quorum : Nat) : NodeState :=
  { xorName := self, quorumSize := quorum,
    peers := [(self, selfAddr)], keygenStarted := false }

def isDkgInit : Effect → Bool
  | .dkgInit _ => true
  | _ => false

/-- Number of `KeyGen::initialize`-plus-relay events in a trace. -/
def dkgInitCount (es : List Effect) : Nat := (es.filter isDkgInit).length

theorem dkgInitCount_append (l1 l2 : List Effect) :
    dkgInitCount (l1 ++ l2) = dkgInitCount l1 + dkgInitCount l2 := by
  simp [dkgInitCount, List.filter_append]

theorem dkgInitCount_sends (ad : Nat) (ps : List (Nat × Nat)) :
    dkgInitCount (ps.map fun p => Effect.sendPeer ad p.1 p.2) = 0 := by
  induction ps with
  | nil => rfl
  | cons p rest ih => simpa [dkgInitCount, isDkgInit] using ih

/-- Value 1 exactly when the registry has reached quorum size. -/
def quorumIndicator (s : NodeState) : Nat :=
  if s.quorumSize ≤ s.peers.length then 1 else 0

theorem handle_peer_msg_quorumSize (s : NodeState) (a ad : Nat) :
    (handle_peer_msg s a ad).1.quorumSize = s.quorumSize := by
  unfold handle_peer_msg initiate_dkg
  by_cases h : btContains s.peers a <;>
    by_cases h2 : (btInsert s.peers a ad).length = s.quorumSize <;>
    simp [h, h2]

theorem handle_peer_msg_indicator (s : NodeState) (a ad : Nat) :
    quorumIndicator (handle_peer_msg s a ad).1
      = quorumIndicator s + dkgInitCount (handle_peer_msg s a ad).2 := by
  by_cases h : btContains s.peers a
  · simp [handle_peer_msg, h, dkgInitCount]
  · have hlen : (btInsert s.peers a ad).length = s.peers.length + 1 :=
      btInsert_length s.peers a ad (by simpa using h)
    by_cases h2 : (btInsert s.peers a ad).length = s.quorumSize
    · have hlt : ¬ s.quorumSize ≤ s.peers.length := by omega
      simp only [handle_peer_msg, h, Bool.false_eq_true, if_false, h2,
        if_true, initiate_dkg]
      rw [dkgInitCount_append, dkgInitCount_sends]
      simp [quorumIndicator, h2, hlt, dkgInitCount, isDkgInit]
    · simp only [handle_peer_msg, h, Bool.false_eq_true, if_false, h2,
        if_false, dkgInitCount_sends, quorumIndicator]
      have : (s.quorumSize ≤ s.peers.length + 1) ↔ (s.quorumSize ≤ s.peers.length) := by
        omega
      simp [hlen, this]

theorem run_peer_msgs_quorumSize (s : NodeState) (anns : List (Nat × Nat)) :
    (run_peer_msgs s anns).1.quorumSize = s.quorumSize := by
  induction anns generalizing s with
  | nil => rfl
  | cons p rest ih =>
    obtain ⟨a, ad⟩ := p
    simpa [run_peer_msgs, ih] using handle_peer_msg_quorumSize s a ad

theorem run_peer_msgs_indicator (s : NodeState) (anns : List (Nat × Nat)) :
    quorumIndicator (run_peer_msgs s anns).1
      = quorumIndicator s + dkgInitCount (run_peer_msgs s anns).2 := by
  induction anns generalizing s with
  | nil => simp [run_peer_msgs, dkgInitCount]
  | cons p rest ih =>
    obtain ⟨a, ad⟩ := p
    have h1 := handle_peer_msg_indicator s a ad
    have h2 := ih (handle_peer_msg s a ad).1
    simp only [run_peer_msgs, dkgInitCount_append]
    omega

theorem handle_peer_msg_known (s : NodeState) (a ad : Nat)
    (h : btContains s.peers a = true) : handle_peer_msg s a ad = (s, []) := by
  simp [handle_peer_msg, h]

theorem handle_peer_msg_peers_fresh (s : NodeState) (a ad : Nat)
    (h : btContains s.peers a = false) :
    (handle_peer_msg s a ad).1.peers = btInsert s.peers a ad := by
  unfold handle_peer_msg initiate_dkg
  by_cases h2 : (btInsert s.peers a ad).length = s.quorumSize <;> simp [h, h2]

theorem handle_peer_msg_btGet_preserved (s : NodeState) (a ad j w : Nat)
    (h : btGet s.peers j = some w) :
    btGet (handle_peer_msg s a ad).1.peers j = some w := by
  by_cases hc : btContains s.peers a
  · rw [handle_peer_msg_known s a ad hc]
    exact h
  · have hne : j ≠ a := by
      intro he
      rw [he] at h
      rw [btGet_none_of_not_contains s.peers a (by simpa using hc)] at h
      exact Option.noConfusion h
    rw [handle_peer_msg_peers_fresh s a ad (by simpa using hc),
      btGet_btInsert_ne s.peers a ad j hne]
    exact h

theorem run_peer_msgs_btGet_preserved (s : NodeState) (anns : List (Nat × Nat))
    (j w : Nat) (h : btGet s.peers j = some w) :
    btGet (run_peer_msgs s anns).1.peers j = some w := by
  induction anns generalizing s with
  | nil => exact h
  | cons p rest ih =>
    obtain ⟨a, ad⟩ := p
    exact ih (handle_peer_msg s a ad).1 (handle_peer_msg_btGet_preserved s a ad j w h)

theorem run_peer_msgs_length_fresh (s : NodeState) (anns : List (Nat × Nat))
    (h1 : (anns.map Prod.fst).Nodup)
    (h2 : ∀ p ∈ anns, btContains s.peers p.1 = false) :
    (run_peer_msgs s anns).1.peers.length = s.peers.length + anns.length := by
  induction anns generalizing s with
  | nil => rfl
  | cons p rest ih =>
    obtain ⟨a, ad⟩ := p
    have hfresh : btContains s.peers a = false := h2 (a, ad) (List.mem_cons_self _ _)
    have hpeers : (handle_peer_msg s a ad).1.peers = btInsert s.peers a ad :=
      handle_peer_msg_peers_fresh s a ad hfresh
    have hnd : (rest.map Prod.fst).Nodup := (List.nodup_cons.mp h1).2
    have hna : a ∉ rest.map Prod.fst := (List.nodup_cons.mp h1).1
    have h2' : ∀ p ∈ rest, btContains (handle_peer_msg s a ad).1.peers p.1 = false := by
      intro q hq
      rw [hpeers, btContains_btInsert]
      have hqa : q.1 ≠ a := by
        intro he
        exact hna (he ▸ List.mem_map_of_mem Prod.fst hq)
      simp [hqa, h2 q (List.mem_cons_of_mem _ hq)]
    have := ih (handle_peer_msg s a ad).1 hnd h2'
    rw [run_peer_msgs]
    simp only at this ⊢
    rw [this, hpeers, btInsert_length s.peers a ad hfresh]
    simp [Nat.add_assoc, Nat.add_comm 1 rest.length]

/-- Typed error of the spentbook wallet protocol.  The `wire::spentbook::wallet::Error`
declaration itself is not in the snapshot, but its variants are fixed by their
uses in `handle_log_spent_request` (spentbook_node.rs:228, 235): `Internal`,
`NotReady`, and an embedding of `sn_dbc::Error` via `e.into()` (here `dbcErr`
over an opaque error code). -/
inductive WalletError
  | notReady
  | internal
  | dbcErr (e : Nat)
deriving DecidableEq, Repr

/-- Filesystem oracle for one `append_spent_log` call: the outcomes of
`OpenOptions::open`, `ron::to_string`, and the first `file.write` (whose
`Result` the source discards with `let _ =`). -/
structure AppendFs where
  openOk : Bool
  serOk : Bool
  writeOk : Bool
deriving DecidableEq, Repr

/-- Embedding of `append_spent_log` (spentbook_node.rs:239-255).  First
component is the function's returned `Result` (`?` on open and on
`ron::to_string`; both `file.write` results are bound to `_` and dropped,
then `Ok(())` is returned).  Second component records whether the entry
actually became durable, i.e. whether the discarded write succeeded. -/
def append_spent_log (fs : AppendFs) : Except Unit Unit × Bool :=
  if !fs.openOk then (Except.error (), false)
  else if !fs.serOk then (Except.error (), false)
  else (Except.ok (), fs.writeOk)

/-- Embedding of `handle_log_spent_request` (spentbook_node.rs:218-237).
`log_spent` is the opaque `SpentBookNodeMock::log_spent` collaborator,
threaded over an abstract collaborator-state type `σ`.  The result is
`(reply, durable, collaborator calls made)`:
* key material absent (`spentbook_node == None`): reply `Err(NotReady)`,
  no collaborator call;
* `log_spent` fails: reply `Err(e.into())`;
* `log_spent` succeeds: `append_spent_log` runs; an `Err` from it maps to
  `Err(Internal)`, otherwise the share is returned. -/
def handle_log_spent_request {σ : Type} (log_spent : σ → Nat × Nat → Except Nat (Nat × σ))
    (spentbook_node : Option σ) (fs : AppendFs) (k tx : Nat) :
    Except WalletError Nat × Bool × List (Nat × Nat) :=
  match spentbook_node with
  | none => (Except.error WalletError.notReady, false, [])
  | some node =>
    match log_spent node (k, tx) with
    | Except.ok r =>
      match (append_spent_log fs).1 with
      | Except.ok _ => (Except.ok r.1, (append_spent_log fs).2, [(k, tx)])
      | Except.error _ => (Except.error WalletError.internal, (append_spent_log fs).2, [(k, tx)])
    | Except.error e => (Except.error (WalletError.dbcErr e), false, [(k, tx)])

/-- Embedding of `handle_reissue_request` (mint_node.rs:271-273):
`self.mint_node.as_ref().unwrap().reissue(rr)`.  The `unwrap()` on an absent
`mint_node` is a panic, embedded as `none`; with key material present the
opaque `MintNode::reissue` collaborator result is returned unchanged. -/
def handle_reissue_request {σ : Type} (reissue : σ → Nat → Except Nat Nat)
    (mint_node : Option σ) (rr : Nat) : Option (Except Nat Nat) :=
  mint_node.map (fun m => reissue m rr)

/-- Embedding of the `Discover` arm of the spentbook request loop
(spentbook_node.rs:187-201): the reply carries
`Some(key_manager.public_key_set())` when `spentbook_node` exists and `None`
otherwise, paired with `self.peers.clone()`.  `public_key_set` is the opaque
key-manager collaborator over an abstract node type `κ`. -/
def handle_discover_request {κ : Type} (public_key_set : κ → Nat)
    (spentbook_node : Option κ) (peers : List (Nat × Nat)) :
    Option Nat × List (Nat × Nat) :=
  (spentbook_node.map public_key_set, peers)

/-- Embedding of `broadcast_p2p_messages` (spentbook_node.rs:414-425): for
each `(target, message)` pair, `if let Some(target_addr) = self.peers.get(&target)`
sends the message to that address, silently skipping unknown targets.  The
result is the ordered list of `(dest_addr, message)` sends performed. -/
def broadcast_p2p_messages (peers : List (Nat × Nat))
    (message_and_target : List (Nat × Nat)) : List (Nat × Nat) :=
  message_and_target.filterMap
    (fun tm => (btGet peers tm.1).map (fun a => (a, tm.2)))

/-- Embedding of `broadcast_dkg_messages` (mint_node.rs:389-399): for each
`(target, message)` pair, `self.peers.get(&target).unwrap()` — a panic when
the target is not registered, embedded as a `none` overall result; otherwise
the ordered list of `(dest_addr, message)` sends performed. -/
def broadcast_dkg_messages (peers : List (Nat × Nat))
    (message_and_target : List (Nat × Nat)) : Option (List (Nat × Nat)) :=
  message_and_target.mapM
    (fun tm => (btGet peers tm.1).map (fun a => (a, tm.2)))

/-- One line of the persisted spentbook log as seen by the replay loop:
the `reader.lines()` item may be an IO error, the `ron::from_str` parse may
fail (malformed), or a `SpentLogEntry { key_image, transaction }` is
obtained. -/
inductive LogLine
  | lineIoErr
  | malformed
  | entry (k tx : Nat)
deriving DecidableEq, Repr

/-- Embedding of the replay loop of `read_spentbook_log`
(spentbook_node.rs:379-412), threading the opaque collaborator state through
`log_spent`.  A line-read IO error and a `ron::from_str` parse failure both
go through `into_diagnostic()?` and abort the whole replay; an entry rejected
by `log_spent` is logged with `error!` and skipped, replay continuing with
the prior collaborator state. -/
def read_spentbook_log {σ : Type} (log_spent : σ → Nat × Nat → Except Nat (Nat × σ)) :
    σ → List LogLine → Except Unit σ
  | s, [] => Except.ok s
  | _, LogLine.lineIoErr :: _ => Except.error ()
  | _, LogLine.malformed :: _ => Except.error ()
  | s, LogLine.entry k tx :: rest =>
    match log_spent s (k, tx) with
    | Except.ok r => read_spentbook_log log_spent r.2 rest
    | Except.error _ => read_spentbook_log log_spent s rest

/-- A reply a spentbook node may send on the wallet channel
(`wire::spentbook::wallet::reply::Msg`): a `LogSpent` result, or any other
variant (unexpected for a `LogSpent` broadcast). -/
inductive SbWalletReply
  | logSpentReply (r : Except Nat Nat)
  | otherReply
deriving Repr

/-- Error with which a client broadcast aborts: the failing member's typed
error (`share_result.into_diagnostic()?`) or the "got unexpected reply from
spentbook node" error, each tagged with that member's address. -/
inductive BroadcastError
  | memberErr (addr : Nat) (e : Nat)
  | unexpectedReply (addr : Nat)
deriving DecidableEq, Repr

/-- Embedding of the client's `broadcast_log_spent` (wallet.rs:635-655,
wallet_node.rs:369-389; `broadcast_reissue`, wallet_node.rs:391-410, is the
same loop over the mint registry).  It walks the cached registry snapshot in
iteration order, sends the request to every member's address sequentially,
and collects one share per member; the first error result or unexpected
reply aborts the whole call with that member's error.  `reply` is the oracle
giving each member's reply. -/
def broadcast_log_spent (spentbook_nodes : List (Nat × Nat))
    (reply : Nat → SbWalletReply) : Except BroadcastError (List Nat) :=
  match spentbook_nodes with
  | [] => Except.ok []
  | (_x, addr) :: rest =>
    match reply addr with
    | SbWalletReply.logSpentReply (Except.ok share) =>
      match broadcast_log_spent rest reply with
      | Except.ok shares => Except.ok (share :: shares)
      | Except.error e => Except.error e
    | SbWalletReply.logSpentReply (Except.error e) =>
      Except.error (BroadcastError.memberErr addr e)
    | SbWalletReply.otherReply => Except.error (BroadcastError.unexpectedReply addr)

theorem quorumIndicator_le_one (s : NodeState) : quorumIndicator s ≤ 1 := by
  unfold quorumIndicator
  split <;> omega

/-- C1, counterexample.  With `quorum_size = 1` the node's registry already
has quorum size at construction (it holds the node itself); a foreign
announcement pushes it past quorum, so the registry reaches and exceeds
`quorum_size`, yet the post-insert equality check `peers.len() == quorum_size`
never fires and DKG is never initialized — not "exactly once". -/
theorem quorum_triggers_once_counterexample :
    1 ≤ (run_peer_msgs (initState 0 0 1) [(1, 1)]).1.peers.length ∧
    dkgInitCount (run_peer_msgs (initState 0 0 1) [(1, 1)]).2 = 0 := by decide

/-- C1, amended.  Provided `quorum_size ≥ 2` (so that the initial singleton
registry is strictly below quorum), a node processing any announcement
sequence performs the `KeyGen::initialize`-plus-relay event exactly once if
the registry reaches `quorum_size` and never otherwise; since the registry
grows by at most one entry per announcement, the single event happens at the
step where the size first equals `quorum_size`.  Moreover (second conjunct)
any single handling step initiates DKG exactly when it inserts a fresh peer
that brings the size to exactly `quorum_size`, and (third conjunct) a fresh
announcement is always inserted, growing the registry by one, even after
quorum. -/
theorem quorum_triggers_once (self sa qs : Nat) (anns : List (Nat × Nat))
    (hqs : 2 ≤ qs) :
    dkgInitCount (run_peer_msgs (initState self sa qs) anns).2
      = (if qs ≤ (run_peer_msgs (initState self sa qs) anns).1.peers.length
          then 1 else 0) ∧
    (∀ s : NodeState, ∀ a ad : Nat,
      dkgInitCount (handle_peer_msg s a ad).2
        = if btContains s.peers a = false ∧ s.peers.length + 1 = s.quorumSize
            then 1 else 0) ∧
    (∀ s : NodeState, ∀ a ad : Nat, btContains s.peers a = false →
      (handle_peer_msg s a ad).1.peers.length = s.peers.length + 1) := by
  refine ⟨?_, ?_, ?_⟩
  · have hrun := run_peer_msgs_indicator (initState self sa qs) anns
    have hqsz := run_peer_msgs_quorumSize (initState self sa qs) anns
    have h0 : quorumIndicator (initState self sa qs) = 0 := by
      have hq1 : ¬ qs ≤ 1 := by omega
      simp [quorumIndicator, initState, hq1]
    have hfin : quorumIndicator (run_peer_msgs (initState self sa qs) anns).1
        = if qs ≤ (run_peer_msgs (initState self sa qs) anns).1.peers.length
            then 1 else 0 := by
      rw [quorumIndicator, hqsz]
      rfl
    rw [hfin, h0] at hrun
    omega
  · intro s a ad
    by_cases hc : btContains s.peers a
    · simp [handle_peer_msg_known s a ad hc, dkgInitCount, hc]
    · have hlen : (btInsert s.peers a ad).length = s.peers.length + 1 :=
        btInsert_length s.peers a ad (by simpa using hc)
      by_cases h2 : (btInsert s.peers a ad).length = s.quorumSize
      · simp only [handle_peer_msg, hc, Bool.false_eq_true, if_false, h2,
          if_true, initiate_dkg]
        rw [dkgInitCount_append, dkgInitCount_sends]
        have : s.peers.length + 1 = s.quorumSize := by omega
        simp [hc, this, dkgInitCount, isDkgInit]
      · simp only [handle_peer_msg, hc, Bool.false_eq_true, if_false, h2,
          if_false, dkgInitCount_sends]
        have : ¬ (s.peers.length + 1 = s.quorumSize) := by omega
        simp [this]
  · intro s a ad h
    rw [handle_peer_msg_peers_fresh s a ad h, btInsert_length s.peers a ad h]

/-- C1, witness: a `quorum_size = 3` node receiving two fresh announcements,
one duplicate, then a late third peer initializes DKG exactly once. -/
theorem quorum_triggers_once_witness :
    dkgInitCount (run_peer_msgs (initState 0 10 3) [(1, 11), (2, 12), (1, 99), (3, 13)]).2 = 1 ∧
    dkgInitCount (handle_peer_msg (initState 0 10 3) 1 11).2 = 0 := by
  constructor
  · rw [(quorum_triggers_once 0 10 3 [(1, 11), (2, 12), (1, 99), (3, 13)] (by omega)).1]
    decide
  · rw [(quorum_triggers_once 0 10 3 [] (by omega)).2.1 (initState 0 10 3) 1 11]
    decide

/-- C2, counterexample.  A `Reissue` request reaching a mint node whose key
material is absent does not produce a typed not-ready reply: the handler is
`self.mint_node.as_ref().unwrap().reissue(rr)` (mint_node.rs:272), and the
`unwrap()` of `None` panics (embedded as `none`), crashing the handling path
instead of answering the caller. -/
theorem mint_reissue_no_guard_counterexample :
    handle_reissue_request (fun (_ : Unit) (r : Nat) => Except.ok r) none 0 = none := rfl

/-- C2, amended.  The not-ready guard holds on the spentbook node only: a
`LogSpent` request arriving while `spentbook_node` is `None` is answered with
the typed `Error::NotReady`, nothing is persisted, and the collaborator is
never called.  On the mint node there is no guard: a `Reissue` request with
`mint_node` absent panics on `unwrap()` (no reply is produced), and the mint
reply type has no not-ready variant at all. -/
theorem not_ready_guard {σ : Type} (log_spent : σ → Nat × Nat → Except Nat (Nat × σ))
    (reissue : σ → Nat → Except Nat Nat) (fs : AppendFs) (k tx rr : Nat) :
    handle_log_spent_request log_spent none fs k tx
      = (Except.error WalletError.notReady, false, []) ∧
    handle_reissue_request reissue none rr = none :=
  ⟨rfl, rfl⟩

/-- C3, code bug.  The spec requires every append failure to fail the whole
request (durability before acknowledgment), and the caller's
`.map_err(|_| Error::Internal)` (spentbook_node.rs:228) shows the same
intent; but `append_spent_log` discards both `file.write` results with
`let _ =` (spentbook_node.rs:252-253) and returns `Ok(())`, so a failed
write after a successful open yields a success reply with no durable
record.  Evaluated here: collaborator succeeds with share 7, the log file
opens and serializes but the write fails, and the client still receives
`Ok(7)` while nothing reached disk. -/
theorem append_write_failure_ignored :
    append_spent_log { openOk := true, serOk := true, writeOk := false }
      = (Except.ok (), false) ∧
    handle_log_spent_request (fun (_ : Unit) (p : Nat × Nat) => Except.ok (p.1, ()))
      (some ()) { openOk := true, serOk := true, writeOk := false } 7 3
      = (Except.ok 7, false, [(7, 3)]) :=
  ⟨rfl, rfl⟩

/-- C4, counterexample.  A DKG outbound pair aimed at a `PeerId` absent from
the registry is dropped without sending on the spentbook node, but on the
mint node `broadcast_dkg_messages` does `self.peers.get(&target).unwrap()`
(mint_node.rs:394), which panics (embedded as `none`) — not a defined,
non-panicking no-op on both nodes as claimed. -/
theorem relay_unknown_target_counterexample :
    broadcast_dkg_messages [(0, 10)] [(1, 99)] = none ∧
    broadcast_p2p_messages [(0, 10)] [(1, 99)] = [] := by decide

/-- C4, amended.  On the spentbook node, relaying to an unknown `PeerId` is a
defined, silent skip: the pair is dropped and the remaining pairs are
processed as if it were not there.  On the mint node the same situation
panics via `unwrap()`, aborting the whole relay. -/
theorem relay_unknown_target_dropped (peers : List (Nat × Nat)) (t m : Nat)
    (mats : List (Nat × Nat)) (h : btGet peers t = none) :
    broadcast_p2p_messages peers ((t, m) :: mats) = broadcast_p2p_messages peers mats ∧
    broadcast_dkg_messages peers ((t, m) :: mats) = none := by
  constructor
  · simp [broadcast_p2p_messages, h]
  · simp [broadcast_dkg_messages, List.mapM, List.mapM.loop, h]

/-- C4, witness: a spentbook relay over registry `[(2, 20)]` drops the pair
targeted at the unknown peer `5` and still delivers to peer `2`, while the
mint relay on the same input panics. -/
theorem relay_unknown_target_dropped_witness :
    broadcast_p2p_messages [(2, 20)] [(5, 7), (2, 3)]
      = broadcast_p2p_messages [(2, 20)] [(2, 3)] ∧
    broadcast_dkg_messages [(2, 20)] [(5, 7), (2, 3)] = none :=
  relay_unknown_target_dropped [(2, 20)] 5 7 [(2, 3)] (by decide)

/-- C5, counterexample.  A malformed line in the persisted spent log is fatal
to the replay: `ron::from_str(&line).into_diagnostic()?`
(spentbook_node.rs:396) aborts `read_spentbook_log` with an error, so the
remaining entries are never applied — the entry is not "logged and skipped"
as claimed.  Here a malformed first line aborts a replay whose second entry
would have been accepted. -/
theorem replay_malformed_fatal_counterexample :
    read_spentbook_log (fun (s : List (Nat × Nat)) p => Except.ok (0, p :: s)) []
      [LogLine.malformed, LogLine.entry 1 2] = Except.error () := rfl

/-- C5, amended.  During replay of the persisted spent log, only an entry
rejected by the collaborator (`log_spent` returns `Err`) is logged and
skipped, replay continuing with the remaining entries; a malformed line
(parse failure) or a line-read IO error goes through `into_diagnostic()?`
and aborts the whole replay with an error. -/
theorem replay_entry_errors {σ : Type} (log_spent : σ → Nat × Nat → Except Nat (Nat × σ))
    (s : σ) (k tx e : Nat) (rest : List LogLine)
    (h : log_spent s (k, tx) = Except.error e) :
    read_spentbook_log log_spent s (LogLine.entry k tx :: rest)
      = read_spentbook_log log_spent s rest ∧
    read_spentbook_log log_spent s (LogLine.malformed :: rest) = Except.error () ∧
    read_spentbook_log log_spent s (LogLine.lineIoErr :: rest) = Except.error () := by
  refine ⟨?_, rfl, rfl⟩
  simp [read_spentbook_log, h]

/-- C5, witness: with a collaborator rejecting every entry, a one-entry log
replays to the same state as the empty log (the entry is skipped), while a
malformed or unreadable line aborts. -/
theorem replay_entry_errors_witness :
    read_spentbook_log (fun (_ : Nat) (_ : Nat × Nat) => (Except.error 5 : Except Nat (Nat × Nat)))
      0 [LogLine.entry 1 2]
      = read_spentbook_log
          (fun (_ : Nat) (_ : Nat × Nat) => (Except.error 5 : Except Nat (Nat × Nat))) 0 [] ∧
    read_spentbook_log (fun (_ : Nat) (_ : Nat × Nat) => (Except.error 5 : Except Nat (Nat × Nat)))
      0 [LogLine.malformed] = Except.error () ∧
    read_spentbook_log (fun (_ : Nat) (_ : Nat × Nat) => (Except.error 5 : Except Nat (Nat × Nat)))
      0 [LogLine.lineIoErr] = Except.error () :=
  replay_entry_errors (fun _ _ => Except.error 5) 0 1 2 5 [] rfl

/-- C6.  A `Discover` request is always answered: the reply's registry
component is the full current peer snapshot whatever the node's phase, and
its verification-material component is `Some(public_key_set)` exactly when
`spentbook_node` (the key material) has been installed and `None` otherwise. -/
theorem discover_reply_contract {κ : Type} (public_key_set : κ → Nat)
    (spentbook_node : Option κ) (peers : List (Nat × Nat)) :
    (handle_discover_request public_key_set spentbook_node peers).2 = peers ∧
    (handle_discover_request public_key_set spentbook_node peers).1
      = spentbook_node.map public_key_set ∧
    (handle_discover_request public_key_set spentbook_node peers).1.isSome
      = spentbook_node.isSome := by
  refine ⟨rfl, rfl, ?_⟩
  cases spentbook_node <;> rfl

/-- C7.  An announcement whose `PeerId` is already registered is a complete
no-op: the handler returns the state unchanged (same registry contents and
size, same DKG fields) and performs no sends and no DKG initialization. -/
theorem duplicate_announce_noop (s : NodeState) (a ad : Nat)
    (h : btContains s.peers a = true) :
    handle_peer_msg s a ad = (s, []) :=
  handle_peer_msg_known s a ad h

/-- C7, witness: re-announcing the node's own id (already registered at
construction) to a fresh node changes nothing and sends nothing. -/
theorem duplicate_announce_noop_witness :
    handle_peer_msg (initState 0 7 3) 0 9 = (initState 0 7 3, []) :=
  duplicate_announce_noop (initState 0 7 3) 0 9 (by decide)

theorem sends_filter_all (ad : Nat) (ps : List (Nat × Nat)) :
    (ps.map fun p => Effect.sendPeer ad p.1 p.2).filter (fun e => !isDkgInit e)
      = ps.map fun p => Effect.sendPeer ad p.1 p.2 := by
  induction ps with
  | nil => rfl
  | cons p rest ih => simpa [isDkgInit] using ih

/-- C8.  Handling an announcement of a previously unknown peer `P = (a, ad)`
emits exactly one `Peer(id, address)` send to `P`'s announced address for
every member of the current registry (first conjunct: the non-DKG effects
are precisely that member list, in registry order; second: every member is
covered), and the post-state registry is the old registry with `P` inserted
(so `P` is now known). -/
theorem join_full_propagation (s : NodeState) (a ad : Nat)
    (h : btContains s.peers a = false) :
    ((handle_peer_msg s a ad).2.filter (fun e => !isDkgInit e))
      = s.peers.map (fun p => Effect.sendPeer ad p.1 p.2) ∧
    (∀ p ∈ s.peers, Effect.sendPeer ad p.1 p.2 ∈ (handle_peer_msg s a ad).2) ∧
    (handle_peer_msg s a ad).1.peers = btInsert s.peers a ad ∧
    btGet (handle_peer_msg s a ad).1.peers a = some ad := by
  have hpeers := handle_peer_msg_peers_fresh s a ad h
  have heff : (handle_peer_msg s a ad).2
      = (s.peers.map fun p => Effect.sendPeer ad p.1 p.2)
        ++ (if (btInsert s.peers a ad).length = s.quorumSize
             then [Effect.dkgInit ((btInsert s.peers a ad).map Prod.fst)] else []) := by
    unfold handle_peer_msg initiate_dkg
    by_cases h2 : (btInsert s.peers a ad).length = s.quorumSize <;> simp [h, h2]
  refine ⟨?_, ?_, hpeers, ?_⟩
  · rw [heff, List.filter_append, sends_filter_all]
    split <;> simp [isDkgInit]
  · intro p hp
    rw [heff]
    exact List.mem_append_left _ (List.mem_map_of_mem _ hp)
  · rw [hpeers]
    exact btGet_btInsert_self s.peers a ad

/-- C8, witness: peer `1` joining a fresh node with registry `[(0, 10)]`
receives that one entry at its address `11` and is then registered. -/
theorem join_full_propagation_witness :
    ((handle_peer_msg (initState 0 10 3) 1 11).2.filter (fun e => !isDkgInit e))
      = [Effect.sendPeer 11 0 10] ∧
    Effect.sendPeer 11 0 10 ∈ (handle_peer_msg (initState 0 10 3) 1 11).2 ∧
    (handle_peer_msg (initState 0 10 3) 1 11).1.peers = btInsert [(0, 10)] 1 11 ∧
    btGet (handle_peer_msg (initState 0 10 3) 1 11).1.peers 1 = some 11 := by
  have h := join_full_propagation (initState 0 10 3) 1 11 (by decide)
  exact ⟨h.1, h.2.1 (0, 10) (by decide), h.2.2.1, h.2.2.2⟩

theorem broadcast_error_through_prefix (reply : Nat → SbWalletReply)
    (pre rest : List (Nat × Nat)) (er : BroadcastError)
    (hpre : ∀ p ∈ pre, ∃ sh, reply p.2 = SbWalletReply.logSpentReply (Except.ok sh))
    (h : broadcast_log_spent rest reply = Except.error er) :
    broadcast_log_spent (pre ++ rest) reply = Except.error er := by
  induction pre with
  | nil => simpa using h
  | cons q pre' ih =>
    obtain ⟨y, b⟩ := q
    obtain ⟨sh, hsh⟩ := hpre (y, b) (List.mem_cons_self _ _)
    have h2 := ih (fun p hp => hpre p (List.mem_cons_of_mem _ hp))
    simp [List.cons_append, broadcast_log_spent, hsh, h2]

/-- C9.  The client's `LogSpent` broadcast walks the whole cached registry
snapshot sequentially (not a threshold-sized subset).  First conjunct: when
every member answers with an `Ok` share, the result is exactly one collected
share per member, in the snapshot's iteration order.  Second and third
conjuncts: the first member to answer with an error result, or with an
unexpected reply variant, aborts the whole broadcast with that member's
error. -/
theorem broadcast_collect_contract (spentbook_nodes : List (Nat × Nat))
    (reply : Nat → SbWalletReply) (shareOf : Nat → Nat) :
    ((∀ p ∈ spentbook_nodes,
        reply p.2 = SbWalletReply.logSpentReply (Except.ok (shareOf p.2))) →
      broadcast_log_spent spentbook_nodes reply
        = Except.ok (spentbook_nodes.map (fun p => shareOf p.2))) ∧
    (∀ (pre : List (Nat × Nat)) (x addr e : Nat) (post : List (Nat × Nat)),
      spentbook_nodes = pre ++ (x, addr) :: post →
      (∀ p ∈ pre, ∃ sh, reply p.2 = SbWalletReply.logSpentReply (Except.ok sh)) →
      reply addr = SbWalletReply.logSpentReply (Except.error e) →
      broadcast_log_spent spentbook_nodes reply
        = Except.error (BroadcastError.memberErr addr e)) ∧
    (∀ (pre : List (Nat × Nat)) (x addr : Nat) (post : List (Nat × Nat)),
      spentbook_nodes = pre ++ (x, addr) :: post →
      (∀ p ∈ pre, ∃ sh, reply p.2 = SbWalletReply.logSpentReply (Except.ok sh)) →
      reply addr = SbWalletReply.otherReply →
      broadcast_log_spent spentbook_nodes reply
        = Except.error (BroadcastError.unexpectedReply addr)) := by
  refine ⟨?_, ?_, ?_⟩
  · induction spentbook_nodes with
    | nil => intro _; rfl
    | cons q rest ih =>
      intro h
      obtain ⟨x, addr⟩ := q
      have hq : reply addr = SbWalletReply.logSpentReply (Except.ok (shareOf addr)) :=
        h (x, addr) (List.mem_cons_self _ _)
      have hrest := ih (fun p hp => h p (List.mem_cons_of_mem _ hp))
      simp [broadcast_log_spent, hq, hrest]
  · intro pre x addr e post hnodes hpre herr
    subst hnodes
    refine broadcast_error_through_prefix reply pre _ _ hpre ?_
    simp [broadcast_log_spent, herr]
  · intro pre x addr post hnodes hpre herr
    subst hnodes
    refine broadcast_error_through_prefix reply pre _ _ hpre ?_
    simp [broadcast_log_spent, herr]

/-- C9, witness: over the two-member snapshot `[(1, 10), (2, 20)]`, an
all-`Ok` round collects both shares in order, and a round in which the
second member returns error 4 aborts with exactly that member's error. -/
theorem broadcast_collect_contract_witness :
    broadcast_log_spent [(1, 10), (2, 20)]
        (fun a => SbWalletReply.logSpentReply (Except.ok (a + 1)))
      = Except.ok [11, 21] ∧
    broadcast_log_spent [(1, 10), (2, 20)]
        (fun a => if a = 20 then SbWalletReply.logSpentReply (Except.error 4)
                  else SbWalletReply.logSpentReply (Except.ok (a + 1)))
      = Except.error (BroadcastError.memberErr 20 4) := by
  constructor
  · exact (broadcast_collect_contract [(1, 10), (2, 20)] _ (fun a => a + 1)).1
      (fun p _ => rfl)
  · exact (broadcast_collect_contract [(1, 10), (2, 20)] _ (fun a => a + 1)).2.1
      [(1, 10)] 2 20 4 [] rfl
      (fun p hp => by rcases List.mem_singleton.mp hp with rfl; exact ⟨11, rfl⟩)
      rfl

/-- C10.  The node's own `(xor_name, public_addr)` entry is placed in the
registry at construction (`initState`) and survives every announcement
sequence at its original address (first conjunct); the registry snapshot a
`Discover` reply carries is exactly that registry, hence includes the
serving node (second conjunct); when `quorum_size ≤ 1` the post-insert
equality check never fires, so DKG is never initiated (third conjunct);
and with `quorum_size = qs ≥ 2`, exactly `qs - 1` distinct foreign
announcements bring the registry to quorum and trigger DKG exactly once
(fourth conjunct). -/
theorem self_entry_registry_invariant {κ : Type} (public_key_set : κ → Nat)
    (spentbook_node : Option κ) (self sa qs : Nat) (anns : List (Nat × Nat)) :
    btGet (run_peer_msgs (initState self sa qs) anns).1.peers self = some sa ∧
    (handle_discover_request public_key_set spentbook_node
        (run_peer_msgs (initState self sa qs) anns).1.peers).2
      = (run_peer_msgs (initState self sa qs) anns).1.peers ∧
    (qs ≤ 1 → dkgInitCount (run_peer_msgs (initState self sa qs) anns).2 = 0) ∧
    ((anns.map Prod.fst).Nodup → (∀ p ∈ anns, p.1 ≠ self) → 2 ≤ qs →
      anns.length = qs - 1 →
      (run_peer_msgs (initState self sa qs) anns).1.peers.length = qs ∧
      dkgInitCount (run_peer_msgs (initState self sa qs) anns).2 = 1) := by
  refine ⟨?_, rfl, ?_, ?_⟩
  · refine run_peer_msgs_btGet_preserved (initState self sa qs) anns self sa ?_
    simp [initState, btGet]
  · intro hqs
    have hrun := run_peer_msgs_indicator (initState self sa qs) anns
    have h0 : quorumIndicator (initState self sa qs) = 1 := by
      simp [quorumIndicator, initState, hqs]
    have hle := quorumIndicator_le_one (run_peer_msgs (initState self sa qs) anns).1
    omega
  · intro hnd hforeign hqs hlen
    have hfresh : ∀ p ∈ anns, btContains (initState self sa qs).peers p.1 = false := by
      intro p hp
      simp [initState, btContains, hforeign p hp]
    have hrunlen := run_peer_msgs_length_fresh (initState self sa qs) anns hnd hfresh
    have hfinal : (run_peer_msgs (initState self sa qs) anns).1.peers.length = qs := by
      have hstart : (initState self sa qs).peers.length = 1 := rfl
      rw [hstart] at hrunlen
      omega
    refine ⟨hfinal, ?_⟩
    have hrun := run_peer_msgs_indicator (initState self sa qs) anns
    have hqsz := run_peer_msgs_quorumSize (initState self sa qs) anns
    have h0 : quorumIndicator (initState self sa qs) = 0 := by
      have hq1 : ¬ qs ≤ 1 := by omega
      simp [quorumIndicator, initState, hq1]
    have hfin : quorumIndicator (run_peer_msgs (initState self sa qs) anns).1 = 1 := by
      rw [quorumIndicator, hqsz, hfinal]
      simp [initState]
    omega

/-- C10, witness: a `quorum_size = 3` node retains its own entry `(0, 10)`
through a three-announcement run that includes a duplicate, its `Discover`
snapshot is the registry itself, a `quorum_size = 1` node never starts DKG,
and two distinct foreign announcements complete a quorum of three with one
DKG initialization. -/
theorem self_entry_registry_invariant_witness :
    btGet (run_peer_msgs (initState 0 10 3) [(1, 11), (2, 12), (1, 99)]).1.peers 0 = some 10 ∧
    (handle_discover_request (fun (_ : Unit) => 0) none
        (run_peer_msgs (initState 0 10 3) [(1, 11), (2, 12), (1, 99)]).1.peers).2
      = (run_peer_msgs (initState 0 10 3) [(1, 11), (2, 12), (1, 99)]).1.peers ∧
    dkgInitCount (run_peer_msgs (initState 0 20 1) [(1, 11), (2, 12)]).2 = 0 ∧
    (run_peer_msgs (initState 0 10 3) [(1, 11), (2, 12)]).1.peers.length = 3 ∧
    dkgInitCount (run_peer_msgs (initState 0 10 3) [(1, 11), (2, 12)]).2 = 1 := by
  have h1 := self_entry_registry_invariant (fun (_ : Unit) => 0) none 0 10 3
    [(1, 11), (2, 12), (1, 99)]
  have h2 := self_entry_registry_invariant (fun (_ : Unit) => 0) none 0 20 1
    [(1, 11), (2, 12)]
  have h3 := (self_entry_registry_invariant (fun (_ : Unit) => 0) none 0 10 3
    [(1, 11), (2, 12)]).2.2.2 (by decide) (by decide) (by omega) (by decide)
  exact ⟨h1.1, h1.2.1, h2.2.2.1 (by omega), h3.1, h3.2⟩
